import Mathlib

/-!
Shallow embedding of `src/lib/data/indexer/TaskBuildIndex.cpp` (Sourcetrail).

The coordinator `TaskBuildIndex` distributes indexer commands to worker
processes/threads through shared-memory managers, drains their intermediate
storages into a `StorageProvider`, and reports progress through a blackboard.
State mutated by the member functions is gathered in `TaskState`; the
blackboard is a separate record of the four keys this file touches.
External nondeterminism (wall-clock readings of the 500 ms drain budget,
concurrent reads of `m_interrupted` inside a worker loop, exit codes of
spawned indexer processes) is supplied as explicit schedules.
-/

namespace TaskBuildIndex

/-- One structured error record, as built by `StorageErrorData(...)` in
`TaskBuildIndex::doExit`. -/
structure StorageErrorData where
  message : String
  filePath : String
  lineNumber : Nat
  columnNumber : Nat
  translationUnit : String
  fatal : Bool
  indexed : Bool
deriving DecidableEq, Repr

/-- An intermediate storage (result bundle). Its indexed content is opaque to
the coordinator; only the error records matter here, plus an opaque payload
tag so distinct bundles can be distinguished. -/
structure IntermediateStorage where
  payload : Nat
  errors : List StorageErrorData
deriving DecidableEq, Repr

/-- The four blackboard keys `TaskBuildIndex` reads or writes. In the C++
code `Blackboard` is a generic key/value store; the task only touches these
keys, so they are modelled as record fields. -/
structure Blackboard where
  indexer_count : Int
  interrupted_indexing : Bool
  indexed_source_file_count : Int
  source_file_count : Int
deriving DecidableEq, Repr

/-- The mutable member state of a `TaskBuildIndex` object, together with the
shared-memory structures it owns:

* `interrupted` — `m_interrupted`
* `lastCommandCount` — `m_lastCommandCount`
* `indexingFileCount` — `m_indexingFileCount`
* `runningThreadCount` — `m_runningThreadCount`
* `commandCount` — the count held by `m_interprocessIndexerCommandManager`
* `finished` — the FIFO behind `getNextFinishedProcessId` (0 = none ready)
* `channels` — per-slot storages of the
  `m_interprocessIntermediateStorageManagers` (index 0 is slot id 1)
* `sink` — the storages accumulated in `m_storageProvider`
  (`getStorageCount` is its length, `insert` appends)
* `processThreads` / `joined` — `m_processThreads` and the ids already joined
* `slept` — trace of the `sleep_for` calls issued, in ms. -/
structure TaskState where
  interrupted : Bool
  lastCommandCount : Nat
  indexingFileCount : Nat
  runningThreadCount : Nat
  commandCount : Nat
  finished : List Nat
  channels : List (List IntermediateStorage)
  sink : List IntermediateStorage
  processThreads : List Nat
  joined : List Nat
  slept : List Nat
deriving DecidableEq, Repr

/-- The subset of `Task::TaskState` values `doUpdate` returns. -/
inductive UpdateResult where
  | STATE_RUNNING
  | STATE_FAILURE
deriving DecidableEq, Repr

/-- `TaskBuildIndex::handleMessage(MessageInterruptTasks*)`:
sets `m_interrupted` when `m_dialogView->dialogsHidden()` is false. -/
def handleMessage (st : TaskState) (dialogsHidden : Bool) : TaskState :=
  if !dialogsHidden then { st with interrupted := true } else st

/-- `TaskBuildIndex::updateIndexingDialog`: bumps `m_indexingFileCount` by the
number of paths shown, and computes the progress percentage dispatched via
`MessageIndexingStatus` (returned as second component). Integer division is
C++ `int` division, i.e. truncation (`Int.tdiv`). -/
def updateIndexingDialog (st : TaskState) (bb : Blackboard) (sourcePaths : List String) :
    TaskState × Int :=
  let sourceFileCount := bb.source_file_count
  let indexedSourceFileCount := bb.indexed_source_file_count
  let st := { st with indexingFileCount := st.indexingFileCount + sourcePaths.length }
  let progress : Int :=
    if sourceFileCount ≠ 0 then Int.tdiv (indexedSourceFileCount * 100) sourceFileCount else 0
  (st, progress)

/-- The do/while loop inside `TaskBuildIndex::fetchIntermediateStorages`.
Arguments are the finished-id FIFO, the per-slot channels, the sink so far and
the popped counter; `timeOk` is the schedule of `TimeStamp::now().deltaMS(t) <
500` readings taken after each iteration (an empty schedule means the budget
has elapsed). Returns the remaining FIFO, the channels, the sink and the
counter. -/
def drainLoop :
    List Nat → List (List IntermediateStorage) → List IntermediateStorage → Nat → List Bool →
      List Nat × List (List IntermediateStorage) × List IntermediateStorage × Nat
  | [], channels, sink, popped, _ => ([], channels, sink, popped)
  | id :: rest, channels, sink, popped, timeOk =>
    if id = 0 ∨ channels.length < id then
      (rest, channels, sink, popped)
    else
      match channels.getD (id - 1) [] with
      | [] => (rest, channels, sink, popped)
      | b :: bs =>
        match timeOk with
        | [] => (rest, channels.set (id - 1) bs, sink ++ [b], popped + 1)
        | t :: ts =>
          if t then drainLoop rest (channels.set (id - 1) bs) (sink ++ [b]) (popped + 1) ts
          else (rest, channels.set (id - 1) bs, sink ++ [b], popped + 1)

/-- `TaskBuildIndex::fetchIntermediateStorages`. Returns the new task state,
the new blackboard and the boolean result. -/
def fetchIntermediateStorages (st : TaskState) (bb : Blackboard) (timeOk : List Bool) :
    TaskState × Blackboard × Bool :=
  let providerStorageCount := st.sink.length
  if 10 < providerStorageCount then
    ({ st with slept := st.slept ++ [100] }, bb, true)
  else
    let r := drainLoop st.finished st.channels st.sink 0 timeOk
    let st := { st with finished := r.1, channels := r.2.1, sink := r.2.2.1 }
    let poppedStorageCount := r.2.2.2
    if 0 < poppedStorageCount then
      (st, { bb with indexed_source_file_count :=
               bb.indexed_source_file_count + poppedStorageCount }, true)
    else
      (st, bb, false)

/-- `TaskBuildIndex::doUpdate`. `indexingFiles` is the external answer of
`getCurrentlyIndexedSourceFilePaths`; `timeOk` is the drain-budget schedule
passed on to `fetchIntermediateStorages`. -/
def doUpdate (st : TaskState) (bb : Blackboard) (indexingFiles : List String)
    (timeOk : List Bool) : TaskState × Blackboard × UpdateResult :=
  let runningThreadCount := st.runningThreadCount
  let commandCount := st.commandCount
  let st :=
    if commandCount ≠ st.lastCommandCount then
      let st := if indexingFiles.length ≠ 0 then (updateIndexingDialog st bb indexingFiles).1 else st
      { st with lastCommandCount := commandCount }
    else st
  if commandCount = 0 ∧ runningThreadCount = 0 then
    (st, bb, .STATE_FAILURE)
  else if st.interrupted then
    let bb := { bb with interrupted_indexing := true }
    let st := { st with commandCount := 0 }
    (st, bb, .STATE_FAILURE)
  else
    let r := fetchIntermediateStorages st bb timeOk
    let st := if r.2.2 then (updateIndexingDialog r.1 r.2.1 []).1 else r.1
    ({ st with slept := st.slept ++ [50] }, r.2.1, .STATE_RUNNING)

/-- The fixed message of the error records synthesized for crashed
translation units in `TaskBuildIndex::doExit`. -/
def crashMessage : String :=
  "The translation unit threw an exception during indexing. Please check if the source file conforms to the specified language standard and all necessary options are defined within your project setup."

/-- One call of `is->addError(StorageErrorData(...))` in `doExit`: fixed
message, the crashed path as file path and as translation unit, position 1:1,
fatal and indexed both true. -/
def mkCrashError (path : String) : StorageErrorData :=
  { message := crashMessage
  , filePath := path
  , lineNumber := 1
  , columnNumber := 1
  , translationUnit := path
  , fatal := true
  , indexed := true }

/-- The `while (fetchIntermediateStorages(blackboard));` loop of `doExit`,
with explicit fuel (the C++ loop can fail to terminate in this model when the
sink stays above the backpressure threshold, because nothing consumes the sink
here). `timeOks` supplies one drain-budget schedule per call. Returns `none`
when the fuel runs out before the drain reports false. -/
def exitDrainLoop :
    Nat → TaskState → Blackboard → List (List Bool) → Option (TaskState × Blackboard)
  | 0, _, _, _ => none
  | fuel + 1, st, bb, timeOks =>
    let tok := timeOks.headD []
    let r := fetchIntermediateStorages st bb tok
    if r.2.2 then exitDrainLoop fuel r.1 r.2.1 timeOks.tail
    else some (r.1, r.2.1)

/-- The join loop at the top of `doExit`: every thread in `m_processThreads`
is joined (recorded in `joined`) and the vector is cleared. -/
def joinAll (st : TaskState) : TaskState :=
  { st with joined := st.joined ++ st.processThreads, processThreads := [] }

/-- The single `IntermediateStorage` synthesized by `doExit` for the crashed
source files: one fatal error record per crashed path, in order. -/
def crashStorage (crashedFiles : List String) : IntermediateStorage :=
  { payload := 0, errors := crashedFiles.map mkCrashError }

/-- `TaskBuildIndex::doExit`. Joins every launched thread, drains until
`fetchIntermediateStorages` reports false, synthesizes one storage holding one
fatal error per crashed file (when any), inserts it into the provider, and
resets the blackboard key `indexer_count` to 0. `crashedFiles` is the external
answer of `getCrashedSourceFilePaths`. -/
def doExit (fuel : Nat) (st : TaskState) (bb : Blackboard) (crashedFiles : List String)
    (timeOks : List (List Bool)) : Option (TaskState × Blackboard) :=
  match exitDrainLoop fuel (joinAll st) bb timeOks with
  | none => none
  | some (st, bb) =>
    let st :=
      if crashedFiles.length ≠ 0 then
        { st with sink := st.sink ++ [crashStorage crashedFiles] }
      else st
    some (st, { bb with indexer_count := 0 })

/-- One invocation of `utility::executeProcessAndGetExitCode` as seen by
`runIndexerProcess`: the command path and the argument vector. -/
structure LaunchCall where
  commandPath : String
  commandArguments : List String
deriving DecidableEq, Repr

/-- The external environment `runIndexerProcess` reads: the resolved indexer
executable path and whether it exists, plus the strings entering the argument
vector. -/
structure WorkerEnv where
  indexerProcessPath : String
  indexerProcessPathExists : Bool
  appUUID : String
  absoluteAppPath : String
  absoluteUserDataPath : String
  logFilePath : String
deriving DecidableEq, Repr

/-- Wrap a string in literal double quotes, as `runIndexerProcess` does for
paths placed into the argument vector. -/
def quoted (s : String) : String := "\"" ++ s ++ "\""

/-- The `commandArguments` vector built by `runIndexerProcess` for worker slot
`processId`: slot id, app UUID, quoted app path, quoted user data path, and
the quoted log file path when one is configured. -/
def commandArgumentsFor (env : WorkerEnv) (processId : Nat) : List String :=
  let args := [toString processId, env.appUUID,
               quoted env.absoluteAppPath, quoted env.absoluteUserDataPath]
  if env.logFilePath ≠ "" then args ++ [quoted env.logFilePath] else args

/-- The launch call `runIndexerProcess` builds once, before its retry loop. -/
def launchCallFor (env : WorkerEnv) (processId : Nat) : LaunchCall :=
  { commandPath := quoted env.indexerProcessPath
  , commandArguments := commandArgumentsFor env processId }

/-- The `while (result != 0 && !m_interrupted)` retry loop of
`runIndexerProcess`. `intr k` is the value of `m_interrupted` observed at the
k-th loop-condition check (the flag is shared and may be set concurrently);
`codes` is the sequence of exit codes the spawned processes would return, so
the loop stops early when the observations run out. Returns the trace of
launch calls issued, the final `result`, and whether the loop exited because
its condition became false (as opposed to the code schedule running dry). -/
def relaunchLoop (call : LaunchCall) (intr : Nat → Bool) :
    Nat → Int → List Int → List LaunchCall × Int × Bool
  | k, result, [] =>
    if result ≠ 0 ∧ intr k = false then ([], result, false) else ([], result, true)
  | k, result, c :: cs =>
    if result ≠ 0 ∧ intr k = false then
      let r := relaunchLoop call intr (k + 1) c cs
      (call :: r.1, r.2.1, r.2.2)
    else ([], result, true)

/-- `TaskBuildIndex::runIndexerProcess`. Increments `m_runningThreadCount`;
if the indexer executable is missing, sets `m_interrupted` and returns early;
otherwise builds the launch call once and runs the retry loop, then
decrements the counter. Also returns the trace of launch calls, the final
exit code and the proper-exit flag of the loop. -/
def runIndexerProcess (env : WorkerEnv) (processId : Nat) (intr : Nat → Bool)
    (codes : List Int) (st : TaskState) : TaskState × List LaunchCall × Int × Bool :=
  let st := { st with runningThreadCount := st.runningThreadCount + 1 }
  if !env.indexerProcessPathExists then
    ({ st with interrupted := true }, [], 1, false)
  else
    let call := launchCallFor env processId
    let r := relaunchLoop call intr 0 1 codes
    ({ st with runningThreadCount := st.runningThreadCount - 1 }, r)

/-- `TaskBuildIndex::runIndexerThread`: increments the live-worker counter,
runs the in-process indexer (external), decrements the counter. -/
def runIndexerThread (st : TaskState) : TaskState :=
  let st := { st with runningThreadCount := st.runningThreadCount + 1 }
  { st with runningThreadCount := st.runningThreadCount - 1 }

/-- Drain step as worded by the specification, independent of the code's
counter threading: pop the next ready slot id and stop if there is none; stop
if the id is 0 or exceeds the number of worker slots; stop if that slot's
channel holds zero bundles; otherwise pop exactly one bundle from that slot's
channel; stop once the time budget elapses. Returns the list of bundles
popped in order, the remaining channels and the remaining finished FIFO. -/
def specDrain :
    List Nat → List (List IntermediateStorage) → List Bool →
      List IntermediateStorage × List (List IntermediateStorage) × List Nat
  | [], channels, _ => ([], channels, [])
  | id :: rest, channels, budget =>
    if id = 0 ∨ channels.length < id then ([], channels, rest)
    else
      match channels.getD (id - 1) [] with
      | [] => ([], channels, rest)
      | b :: bs =>
        match budget with
        | [] => ([b], channels.set (id - 1) bs, rest)
        | t :: ts =>
          if t then
            let r := specDrain rest (channels.set (id - 1) bs) ts
            (b :: r.1, r.2.1, r.2.2)
          else ([b], channels.set (id - 1) bs, rest)

/-! ### Concrete fixtures used by witnesses and counterexamples -/

/-- A fresh task state: all counters zero, all queues empty. -/
def st0 : TaskState :=
  { interrupted := false, lastCommandCount := 0, indexingFileCount := 0
  , runningThreadCount := 0, commandCount := 0, finished := [], channels := []
  , sink := [], processThreads := [], joined := [], slept := [] }

/-- A blackboard with all keys at their defaults. -/
def bb0 : Blackboard :=
  { indexer_count := 0, interrupted_indexing := false
  , indexed_source_file_count := 0, source_file_count := 0 }

/-- An empty result bundle. -/
def bundle0 : IntermediateStorage := { payload := 0, errors := [] }

/-- A task state whose sink holds 11 bundles, i.e. above the backpressure
threshold of 10. -/
def stBusy : TaskState := { st0 with sink := List.replicate 11 bundle0 }

/-- A second distinguishable bundle. -/
def bundle1 : IntermediateStorage := { payload := 1, errors := [] }

/-- A worker environment whose indexer executable is missing. -/
def envMissing : WorkerEnv :=
  { indexerProcessPath := "/opt/app/sourcetrail_indexer", indexerProcessPathExists := false
  , appUUID := "uuid", absoluteAppPath := "/opt/app"
  , absoluteUserDataPath := "/home/user/data", logFilePath := "" }

/-- A worker environment whose indexer executable exists. -/
def envOk : WorkerEnv := { envMissing with indexerProcessPathExists := true }

/-- A state with the interrupt flag set after all work is done: empty command
queue and no running workers. -/
def stDone : TaskState := { st0 with interrupted := true }

/-- A state with the interrupt flag set while one command is still queued. -/
def stRun : TaskState :=
  { st0 with interrupted := true, commandCount := 1, lastCommandCount := 1 }

/-- A state with two slots finished, each channel holding one bundle. -/
def stReady : TaskState :=
  { st0 with finished := [1, 2], channels := [[bundle0], [bundle1]] }

/-- The state `doExit` produces from `st0` with one crashed file. -/
def stCrashExit : TaskState := { st0 with sink := [crashStorage ["a.cpp"]] }

/-! ### Helper lemmas -/

/-- The code's drain loop equals the spec-worded drain: same remaining FIFO
and channels, the sink extended by exactly the popped bundles, the counter
advanced by their number. -/
theorem drainLoop_eq_specDrain (fin : List Nat) :
    ∀ ch sink popped tok,
      drainLoop fin ch sink popped tok =
        ((specDrain fin ch tok).2.2, (specDrain fin ch tok).2.1,
         sink ++ (specDrain fin ch tok).1, popped + (specDrain fin ch tok).1.length) := by
  induction fin with
  | nil =>
    intro ch sink popped tok
    simp [drainLoop, specDrain]
  | cons id rest ih =>
    intro ch sink popped tok
    by_cases h : id = 0 ∨ ch.length < id
    · simp [drainLoop, specDrain, h]
    · rcases hch : (ch[id - 1]?).getD [] with _ | ⟨b, bs⟩
      · simp [drainLoop, specDrain, h, hch]
      · rcases tok with _ | ⟨t, ts⟩
        · simp [drainLoop, specDrain, h, hch]
        · cases t with
          | false => simp [drainLoop, specDrain, h, hch]
          | true =>
            have hstep : drainLoop (id :: rest) ch sink popped (true :: ts)
                = drainLoop rest (ch.set (id - 1) bs) (sink ++ [b]) (popped + 1) ts := by
              simp [drainLoop, h, hch]
            have hspec : specDrain (id :: rest) ch (true :: ts)
                = (b :: (specDrain rest (ch.set (id - 1) bs) ts).1,
                   (specDrain rest (ch.set (id - 1) bs) ts).2.1,
                   (specDrain rest (ch.set (id - 1) bs) ts).2.2) := by
              simp [specDrain, h, hch]
            rw [hstep, ih, hspec]
            simp [List.append_assoc, Nat.add_comm, Nat.add_assoc, Nat.add_left_comm]

/-- `fetchIntermediateStorages` never touches the thread bookkeeping. -/
theorem fetch_preserves_threads (st : TaskState) (bb : Blackboard) (tok : List Bool) :
    (fetchIntermediateStorages st bb tok).1.processThreads = st.processThreads ∧
    (fetchIntermediateStorages st bb tok).1.joined = st.joined := by
  by_cases h : 10 < st.sink.length
  · simp [fetchIntermediateStorages, h]
  · simp only [fetchIntermediateStorages, h, if_false, ite_false]
    split <;> simp

/-- A successful exit-drain preserves the thread bookkeeping. -/
theorem exitDrainLoop_preserves_threads (fuel : Nat) :
    ∀ st bb toks st' bb', exitDrainLoop fuel st bb toks = some (st', bb') →
      st'.processThreads = st.processThreads ∧ st'.joined = st.joined := by
  induction fuel with
  | zero => intro st bb toks st' bb' h; simp [exitDrainLoop] at h
  | succ fuel ih =>
    intro st bb toks st' bb' h
    unfold exitDrainLoop at h
    by_cases hf : (fetchIntermediateStorages st bb (toks.headD [])).2.2 = true
    · rw [if_pos hf] at h
      have := ih _ _ _ _ _ h
      have hp := fetch_preserves_threads st bb (toks.headD [])
      exact ⟨this.1.trans hp.1, this.2.trans hp.2⟩
    · rw [if_neg hf] at h
      have h1 : (fetchIntermediateStorages st bb (toks.headD [])).1 = st' := by
        injection h with h'
        exact congrArg Prod.fst h'
      have hp := fetch_preserves_threads st bb (toks.headD [])
      rw [h1] at hp
      exact hp

/-- A successful exit-drain ends because the last call of
`fetchIntermediateStorages` returned false. -/
theorem exitDrainLoop_last_fetch_false (fuel : Nat) :
    ∀ st bb toks st' bb', exitDrainLoop fuel st bb toks = some (st', bb') →
      ∃ sp bp tk, fetchIntermediateStorages sp bp tk = (st', bb', false) := by
  induction fuel with
  | zero => intro st bb toks st' bb' h; simp [exitDrainLoop] at h
  | succ fuel ih =>
    intro st bb toks st' bb' h
    unfold exitDrainLoop at h
    by_cases hf : (fetchIntermediateStorages st bb (toks.headD [])).2.2 = true
    · rw [if_pos hf] at h
      exact ih _ _ _ _ _ h
    · rw [if_neg hf] at h
      refine ⟨st, bb, toks.headD [], ?_⟩
      injection h with h'
      have h1 : (fetchIntermediateStorages st bb (toks.headD [])).1 = st' :=
        congrArg Prod.fst h'
      have h2 : (fetchIntermediateStorages st bb (toks.headD [])).2.1 = bb' :=
        congrArg Prod.snd h'
      have h3 : (fetchIntermediateStorages st bb (toks.headD [])).2.2 = false := by
        cases hv : (fetchIntermediateStorages st bb (toks.headD [])).2.2
        · rfl
        · exact absurd hv hf
      have heta : fetchIntermediateStorages st bb (toks.headD []) =
          ((fetchIntermediateStorages st bb (toks.headD [])).1,
           (fetchIntermediateStorages st bb (toks.headD [])).2.1,
           (fetchIntermediateStorages st bb (toks.headD [])).2.2) := rfl
      rw [heta, h1, h2, h3]

/-- Every launch in the retry loop's trace is the one call built before the
loop. -/
theorem relaunchLoop_trace_all (call : LaunchCall) (intr : Nat → Bool) :
    ∀ codes k result, ∀ c ∈ (relaunchLoop call intr k result codes).1, c = call := by
  intro codes
  induction codes with
  | nil =>
    intro k result c hc
    unfold relaunchLoop at hc
    split at hc <;> simp at hc
  | cons code cs ih =>
    intro k result c hc
    unfold relaunchLoop at hc
    split at hc
    · simp at hc
      rcases hc with hc | hc
      · exact hc
      · exact ih _ _ c hc
    · simp at hc

/-- When the retry loop exits through its condition, either the last observed
exit code was 0 or the interrupt flag read true at the final check. -/
theorem relaunchLoop_stops_on_zero_or_interrupt (call : LaunchCall) (intr : Nat → Bool) :
    ∀ codes k result,
      (relaunchLoop call intr k result codes).2.2 = true →
      (relaunchLoop call intr k result codes).2.1 = 0 ∨
        intr (k + (relaunchLoop call intr k result codes).1.length) = true := by
  intro codes
  induction codes with
  | nil =>
    intro k result h
    unfold relaunchLoop at h ⊢
    split at h
    · simp at h
    · next hcond =>
      rw [if_neg hcond]
      rcases not_and_or.mp hcond with hc | hc
      · exact Or.inl (not_not.mp hc)
      · refine Or.inr ?_
        cases hv : intr k with
        | false => exact absurd hv hc
        | true => exact hv
  | cons code cs ih =>
    intro k result h
    unfold relaunchLoop at h ⊢
    split at h
    · next hcond =>
      rw [if_pos hcond]
      have h' : (relaunchLoop call intr (k + 1) code cs).2.2 = true := h
      rcases ih (k + 1) code h' with h0 | hi
      · exact Or.inl h0
      · refine Or.inr ?_
        have hx : k + 1 + (relaunchLoop call intr (k + 1) code cs).1.length
            = k + (call :: (relaunchLoop call intr (k + 1) code cs).1).length := by
          simp only [List.length_cons]
          omega
        rw [hx] at hi
        exact hi
    · next hcond =>
      rw [if_neg hcond]
      rcases not_and_or.mp hcond with hc | hc
      · exact Or.inl (not_not.mp hc)
      · refine Or.inr ?_
        cases hv : intr k with
        | false => exact absurd hv hc
        | true => exact hv

/-! ### Claim theorems -/

/-- C1 counterexample: with modal dialogs hidden (`dialogsHidden = true`) and
the flag clear, delivering the interrupt message leaves the flag clear — the
claim says it would become true. -/
theorem handleMessage_dialogs_hidden_counterexample :
    st0.interrupted = false ∧ (handleMessage st0 true).interrupted = false :=
  ⟨rfl, rfl⟩

/-- C1 (amended): `handleMessage` sets the interrupt flag iff the dialog view
is NOT hidden: when `dialogsHidden` is true the state is unchanged, and when
it is false the flag becomes true (and it stays true once set). -/
theorem handleMessage_sets_flag_iff_dialogs_visible (st : TaskState) (dialogsHidden : Bool) :
    ((handleMessage st dialogsHidden).interrupted = true ↔
      (st.interrupted = true ∨ dialogsHidden = false)) ∧
    (dialogsHidden = true → handleMessage st dialogsHidden = st) ∧
    (dialogsHidden = false →
      handleMessage st dialogsHidden = { st with interrupted := true }) := by
  cases dialogsHidden <;> simp [handleMessage]

/-- C1 witness: the amended theorem evaluated at `st0` with dialogs hidden. -/
theorem handleMessage_sets_flag_iff_dialogs_visible_witness :
    ((handleMessage st0 true).interrupted = true ↔
      (st0.interrupted = true ∨ true = false)) ∧
    (true = true → handleMessage st0 true = st0) ∧
    (true = false → handleMessage st0 true = { st0 with interrupted := true }) :=
  handleMessage_sets_flag_iff_dialogs_visible st0 true

/-- C2: with the worker executable missing, `runIndexerProcess` increments the
live-worker counter and returns through the early path without decrementing
it, so the counter ends at 1 instead of its pre-launch value 0 (the thread
routine, by contrast, ends at 0). This exhibits the missing decrement on the
early-return path. -/
theorem runIndexerProcess_missing_executable_leaks_counter :
    st0.runningThreadCount = 0 ∧
    (runIndexerProcess envMissing 1 (fun _ => false) [] st0).1.runningThreadCount = 1 ∧
    (runIndexerProcess envMissing 1 (fun _ => false) [] st0).1.interrupted = true ∧
    (runIndexerThread st0).runningThreadCount = 0 :=
  ⟨rfl, rfl, rfl, rfl⟩

/-- C4: whenever the provider already holds more than 10 storages, a drain
call changes nothing except recording the fixed 100 ms sleep, touches neither
the finished FIFO nor the blackboard, pops nothing, and returns true. -/
theorem fetchIntermediateStorages_backpressure (st : TaskState) (bb : Blackboard)
    (tok : List Bool) (h : 10 < st.sink.length) :
    fetchIntermediateStorages st bb tok = ({ st with slept := st.slept ++ [100] }, bb, true) := by
  simp [fetchIntermediateStorages, h]

/-- C4 witness: the backpressure theorem evaluated at a sink of 11 bundles. -/
theorem fetchIntermediateStorages_backpressure_witness :
    10 < stBusy.sink.length ∧
    fetchIntermediateStorages stBusy bb0 [] =
      ({ stBusy with slept := stBusy.slept ++ [100] }, bb0, true) :=
  ⟨by decide, fetchIntermediateStorages_backpressure stBusy bb0 [] (by decide)⟩

/-- C9: the progress percentage published by `updateIndexingDialog` is
`indexedSourceFileCount * 100 / sourceFileCount` (C++ truncating division)
when the source file count is non-zero, and 0 when it is zero — the division
is guarded. -/
theorem updateIndexingDialog_progress_guarded (st : TaskState) (bb : Blackboard)
    (paths : List String) :
    (updateIndexingDialog st bb paths).2 =
      if bb.source_file_count = 0 then 0
      else Int.tdiv (bb.indexed_source_file_count * 100) bb.source_file_count := by
  by_cases h : bb.source_file_count = 0 <;> simp [updateIndexingDialog, h]

/-- C3 counterexample: with the interrupt flag set but the command queue
already empty and no worker alive, `doUpdate` returns FAILURE through the
completion branch and does NOT set `interrupted_indexing`. -/
theorem doUpdate_interrupted_after_completion_counterexample :
    stDone.interrupted = true ∧
    (doUpdate stDone bb0 [] []).2.2 = UpdateResult.STATE_FAILURE ∧
    (doUpdate stDone bb0 [] []).2.1.interrupted_indexing = false :=
  ⟨rfl, rfl, rfl⟩

/-- C3 (amended): when the interrupt flag is set and the task has not already
completed (the command queue and live-worker count are not both zero), the
next `doUpdate` sets `interrupted_indexing` to true, clears the command queue
to size 0 and returns FAILURE. -/
theorem doUpdate_interrupt_sets_flag_and_clears_queue (st : TaskState) (bb : Blackboard)
    (files : List String) (tok : List Bool)
    (hint : st.interrupted = true)
    (hbusy : ¬(st.commandCount = 0 ∧ st.runningThreadCount = 0)) :
    (doUpdate st bb files tok).2.1.interrupted_indexing = true ∧
    (doUpdate st bb files tok).1.commandCount = 0 ∧
    (doUpdate st bb files tok).2.2 = UpdateResult.STATE_FAILURE := by
  by_cases hcc : st.commandCount ≠ st.lastCommandCount <;>
    by_cases hfl : files.length ≠ 0 <;>
      simp [doUpdate, updateIndexingDialog, hbusy, hint, hcc, hfl]

/-- C3 witness: the amended theorem evaluated with one queued command. -/
theorem doUpdate_interrupt_sets_flag_and_clears_queue_witness :
    stRun.interrupted = true ∧
    ¬(stRun.commandCount = 0 ∧ stRun.runningThreadCount = 0) ∧
    ((doUpdate stRun bb0 [] []).2.1.interrupted_indexing = true ∧
     (doUpdate stRun bb0 [] []).1.commandCount = 0 ∧
     (doUpdate stRun bb0 [] []).2.2 = UpdateResult.STATE_FAILURE) :=
  ⟨rfl, by decide,
   doUpdate_interrupt_sets_flag_and_clears_queue stRun bb0 [] [] rfl (by decide)⟩

/-- C5 counterexample: with FinishedSignal empty but more than 10 pending
bundles in the sink, the drain call returns true, not false as the claim
states for every call with an empty FinishedSignal. -/
theorem fetchIntermediateStorages_idle_backpressure_counterexample :
    stBusy.finished = [] ∧ (fetchIntermediateStorages stBusy bb0 []).2.2 = true :=
  ⟨rfl, rfl⟩

/-- C5 (amended): provided the sink holds at most 10 pending bundles, a drain
call made when FinishedSignal is empty, or when every slot id in it is out of
range or refers to a channel with zero buffered bundles, pops no bundle,
inserts nothing into the sink, leaves the blackboard unchanged and returns
false. -/
theorem fetchIntermediateStorages_noop_when_nothing_ready (st : TaskState) (bb : Blackboard)
    (tok : List Bool)
    (hsink : st.sink.length ≤ 10)
    (hempty : ∀ id ∈ st.finished,
      id = 0 ∨ st.channels.length < id ∨ (st.channels[id - 1]?).getD [] = []) :
    (fetchIntermediateStorages st bb tok).1.sink = st.sink ∧
    (fetchIntermediateStorages st bb tok).1.channels = st.channels ∧
    (fetchIntermediateStorages st bb tok).2.1 = bb ∧
    (fetchIntermediateStorages st bb tok).2.2 = false := by
  have hnot : ¬10 < st.sink.length := by omega
  cases hfin : st.finished with
  | nil =>
    have hb : drainLoop st.finished st.channels st.sink 0 tok
        = ([], st.channels, st.sink, 0) := by
      rw [hfin]
      simp [drainLoop]
    simp [fetchIntermediateStorages, hnot, hb]
  | cons id rest =>
    have hm : id ∈ st.finished := by
      rw [hfin]
      exact List.mem_cons_self id rest
    have hb : drainLoop st.finished st.channels st.sink 0 tok
        = (rest, st.channels, st.sink, 0) := by
      rw [hfin]
      rcases hempty id hm with hc | hc | hc
      · simp [drainLoop, hc]
      · simp [drainLoop, hc]
      · by_cases hid : id = 0 ∨ st.channels.length < id
        · simp [drainLoop, hid]
        · simp [drainLoop, hid, hc]
    simp [fetchIntermediateStorages, hnot, hb]

/-- C5 witness: the amended theorem evaluated at the fresh state. -/
theorem fetchIntermediateStorages_noop_when_nothing_ready_witness :
    st0.sink.length ≤ 10 ∧
    (∀ id ∈ st0.finished,
      id = 0 ∨ st0.channels.length < id ∨ (st0.channels[id - 1]?).getD [] = []) ∧
    ((fetchIntermediateStorages st0 bb0 []).1.sink = st0.sink ∧
     (fetchIntermediateStorages st0 bb0 []).1.channels = st0.channels ∧
     (fetchIntermediateStorages st0 bb0 []).2.1 = bb0 ∧
     (fetchIntermediateStorages st0 bb0 []).2.2 = false) :=
  ⟨by decide, by simp [st0],
   fetchIntermediateStorages_noop_when_nothing_ready st0 bb0 [] (by decide) (by simp [st0])⟩

/-- C6: below the backpressure threshold, a drain call behaves exactly as the
spec-worded iteration `specDrain`: the sink is extended by precisely the
popped bundles, the channels and the finished FIFO end as `specDrain` leaves
them, `indexed_source_file_count` grows by exactly the number popped (so it
is unchanged when none were), and the call returns true iff at least one
bundle was popped. -/
theorem fetchIntermediateStorages_drains_per_spec (st : TaskState) (bb : Blackboard)
    (tok : List Bool) (h : st.sink.length ≤ 10) :
    fetchIntermediateStorages st bb tok =
      ({ st with finished := (specDrain st.finished st.channels tok).2.2
               , channels := (specDrain st.finished st.channels tok).2.1
               , sink := st.sink ++ (specDrain st.finished st.channels tok).1 },
       (if 0 < (specDrain st.finished st.channels tok).1.length then
          { bb with indexed_source_file_count :=
              bb.indexed_source_file_count + (specDrain st.finished st.channels tok).1.length }
        else bb),
       decide (0 < (specDrain st.finished st.channels tok).1.length)) := by
  have hnot : ¬10 < st.sink.length := by omega
  by_cases hp : 0 < (specDrain st.finished st.channels tok).1.length <;>
    simp [fetchIntermediateStorages, hnot, drainLoop_eq_specDrain, hp]

/-- C6 witness: the drain theorem evaluated at a state with two ready slots. -/
theorem fetchIntermediateStorages_drains_per_spec_witness :
    stReady.sink.length ≤ 10 ∧
    fetchIntermediateStorages stReady bb0 [true, true] =
      ({ stReady with
           finished := (specDrain stReady.finished stReady.channels [true, true]).2.2
         , channels := (specDrain stReady.finished stReady.channels [true, true]).2.1
         , sink := stReady.sink ++ (specDrain stReady.finished stReady.channels [true, true]).1 },
       (if 0 < (specDrain stReady.finished stReady.channels [true, true]).1.length then
          { bb0 with indexed_source_file_count :=
              bb0.indexed_source_file_count +
                (specDrain stReady.finished stReady.channels [true, true]).1.length }
        else bb0),
       decide (0 < (specDrain stReady.finished stReady.channels [true, true]).1.length)) :=
  ⟨by decide, fetchIntermediateStorages_drains_per_spec stReady bb0 [true, true] (by decide)⟩

/-- C7: when `doExit` returns and at least one crashed source path was
recorded, every launched thread has been joined, the drain loop ended with a
call of `fetchIntermediateStorages` that returned false, the sink received
exactly one additional bundle holding one fatal error per crashed path (in
order, each tagged with its path), and `indexer_count` is 0. -/
theorem doExit_crash_accounting (fuel : Nat) (st : TaskState) (bb : Blackboard)
    (crashed : List String) (toks : List (List Bool)) (stF : TaskState) (bbF : Blackboard)
    (h : doExit fuel st bb crashed toks = some (stF, bbF))
    (hM : crashed ≠ []) :
    stF.processThreads = [] ∧
    stF.joined = st.joined ++ st.processThreads ∧
    (∃ stD bbD,
      exitDrainLoop fuel (joinAll st) bb toks = some (stD, bbD) ∧
      (∃ sp bp tk, fetchIntermediateStorages sp bp tk = (stD, bbD, false)) ∧
      stF.sink = stD.sink ++ [crashStorage crashed] ∧
      bbF = { bbD with indexer_count := 0 }) ∧
    (crashStorage crashed).errors.length = crashed.length ∧
    (∀ e ∈ (crashStorage crashed).errors, e.fatal = true) ∧
    (crashStorage crashed).errors.map StorageErrorData.filePath = crashed ∧
    bbF.indexer_count = 0 := by
  have hlen : crashed.length ≠ 0 := fun h0 => hM (List.length_eq_zero.mp h0)
  unfold doExit at h
  cases hE : exitDrainLoop fuel (joinAll st) bb toks with
  | none => rw [hE] at h; simp at h
  | some p =>
    obtain ⟨stD, bbD⟩ := p
    rw [hE] at h
    simp only [hlen, if_true, ite_true, ne_eq, not_false_iff, Option.some.injEq,
      Prod.mk.injEq] at h
    obtain ⟨h1, h2⟩ := h
    have hpres := exitDrainLoop_preserves_threads fuel (joinAll st) bb toks stD bbD hE
    refine ⟨?_, ?_, ⟨stD, bbD, rfl, exitDrainLoop_last_fetch_false fuel _ _ _ _ _ hE, ?_, ?_⟩,
      ?_, ?_, ?_, ?_⟩
    · rw [← h1]
      exact hpres.1
    · rw [← h1]
      exact hpres.2
    · rw [← h1]
    · exact h2.symm
    · simp [crashStorage]
    · intro e he
      simp only [crashStorage, List.mem_map] at he
      obtain ⟨p, hp, rfl⟩ := he
      rfl
    · simp only [crashStorage, List.map_map]
      exact List.map_id crashed
    · rw [← h2]

/-- C7 witness: `doExit` from the fresh state with one crashed file. -/
theorem doExit_crash_accounting_witness :
    doExit 1 st0 bb0 ["a.cpp"] [] = some (stCrashExit, bb0) ∧
    (["a.cpp"] : List String) ≠ [] ∧
    (stCrashExit.processThreads = [] ∧
     stCrashExit.joined = st0.joined ++ st0.processThreads ∧
     (∃ stD bbD,
       exitDrainLoop 1 (joinAll st0) bb0 [] = some (stD, bbD) ∧
       (∃ sp bp tk, fetchIntermediateStorages sp bp tk = (stD, bbD, false)) ∧
       stCrashExit.sink = stD.sink ++ [crashStorage ["a.cpp"]] ∧
       bb0 = { bbD with indexer_count := 0 }) ∧
     (crashStorage ["a.cpp"]).errors.length = (["a.cpp"] : List String).length ∧
     (∀ e ∈ (crashStorage ["a.cpp"]).errors, e.fatal = true) ∧
     (crashStorage ["a.cpp"]).errors.map StorageErrorData.filePath = ["a.cpp"] ∧
     bb0.indexer_count = 0) :=
  ⟨rfl, by decide, doExit_crash_accounting 1 st0 bb0 ["a.cpp"] [] stCrashExit bb0 rfl (by decide)⟩

/-- C8: with the worker executable present, every process launch in the retry
loop uses the one command path and argument list built before the loop; if
the loop exited through its condition then the last exit code was 0 or the
interrupt flag read true; and whenever an exit code is non-zero while the
interrupt flag reads false, the loop launches the process again. -/
theorem runIndexerProcess_relaunch_policy (env : WorkerEnv) (processId : Nat)
    (intr : Nat → Bool) (codes : List Int) (st : TaskState)
    (hex : env.indexerProcessPathExists = true) :
    (∀ c ∈ (runIndexerProcess env processId intr codes st).2.1,
       c = launchCallFor env processId) ∧
    ((runIndexerProcess env processId intr codes st).2.2.2 = true →
       (runIndexerProcess env processId intr codes st).2.2.1 = 0 ∨
       intr (runIndexerProcess env processId intr codes st).2.1.length = true) ∧
    (∀ k result c cs, result ≠ 0 → intr k = false →
       relaunchLoop (launchCallFor env processId) intr k result (c :: cs) =
         (launchCallFor env processId ::
            (relaunchLoop (launchCallFor env processId) intr (k + 1) c cs).1,
          (relaunchLoop (launchCallFor env processId) intr (k + 1) c cs).2.1,
          (relaunchLoop (launchCallFor env processId) intr (k + 1) c cs).2.2)) := by
  have hr : (runIndexerProcess env processId intr codes st).2 =
      relaunchLoop (launchCallFor env processId) intr 0 1 codes := by
    simp [runIndexerProcess, hex]
  refine ⟨?_, ?_, ?_⟩
  · intro c hc
    rw [hr] at hc
    exact relaunchLoop_trace_all (launchCallFor env processId) intr codes 0 1 c hc
  · intro hp
    rw [hr] at hp ⊢
    have := relaunchLoop_stops_on_zero_or_interrupt
      (launchCallFor env processId) intr codes 0 1 hp
    simpa using this
  · intro k result c cs h1 h2
    simp [relaunchLoop, h1, h2]

/-- C8 witness: a run whose first launch exits with code 1 and second with
code 0, never interrupted. -/
theorem runIndexerProcess_relaunch_policy_witness :
    (∀ c ∈ (runIndexerProcess envOk 1 (fun _ => false) [1, 0] st0).2.1,
       c = launchCallFor envOk 1) ∧
    ((runIndexerProcess envOk 1 (fun _ => false) [1, 0] st0).2.2.2 = true →
       (runIndexerProcess envOk 1 (fun _ => false) [1, 0] st0).2.2.1 = 0 ∨
       (fun _ => false) (runIndexerProcess envOk 1 (fun _ => false) [1, 0] st0).2.1.length
         = true) ∧
    (∀ k result c cs, result ≠ 0 → (fun _ => false) k = false →
       relaunchLoop (launchCallFor envOk 1) (fun _ => false) k result (c :: cs) =
         (launchCallFor envOk 1 ::
            (relaunchLoop (launchCallFor envOk 1) (fun _ => false) (k + 1) c cs).1,
          (relaunchLoop (launchCallFor envOk 1) (fun _ => false) (k + 1) c cs).2.1,
          (relaunchLoop (launchCallFor envOk 1) (fun _ => false) (k + 1) c cs).2.2)) :=
  runIndexerProcess_relaunch_policy envOk 1 (fun _ => false) [1, 0] st0 rfl

/-- C10: when no crashed source path was recorded, `doExit` inserts no
crash-report bundle: the final state is exactly the drained state (in
particular its sink), with only `indexer_count` reset to 0 on the
blackboard. -/
theorem doExit_no_crash_no_extra_bundle (fuel : Nat) (st : TaskState) (bb : Blackboard)
    (toks : List (List Bool)) (stF : TaskState) (bbF : Blackboard)
    (h : doExit fuel st bb [] toks = some (stF, bbF)) :
    ∃ stD bbD, exitDrainLoop fuel (joinAll st) bb toks = some (stD, bbD) ∧
      stF = stD ∧ stF.sink = stD.sink ∧ bbF = { bbD with indexer_count := 0 } := by
  unfold doExit at h
  cases hE : exitDrainLoop fuel (joinAll st) bb toks with
  | none => rw [hE] at h; simp at h
  | some p =>
    obtain ⟨stD, bbD⟩ := p
    rw [hE] at h
    simp only [List.length_nil, ne_eq, not_true, ite_false, if_false,
      Option.some.injEq, Prod.mk.injEq] at h
    obtain ⟨h1, h2⟩ := h
    exact ⟨stD, bbD, rfl, h1.symm, by rw [h1], h2.symm⟩

/-- C10 witness: `doExit` from the fresh state with no crashed files. -/
theorem doExit_no_crash_no_extra_bundle_witness :
    doExit 1 st0 bb0 [] [] = some (st0, bb0) ∧
    (∃ stD bbD, exitDrainLoop 1 (joinAll st0) bb0 [] = some (stD, bbD) ∧
      st0 = stD ∧ st0.sink = stD.sink ∧ bb0 = { bbD with indexer_count := 0 }) :=
  ⟨rfl, doExit_no_crash_no_extra_bundle 1 st0 bb0 [] st0 bb0 rfl⟩

end TaskBuildIndex
